import Mathlib

/-!
Verification of the reducer core of the `react-hooks-redux-combine-reducers`
repository: the books slice reducer, the authors slice reducer, and the root
reducer obtained by combining them over the field mapping
`{ authors: authorsReducer, books: booksReducer }`.

Modelling decisions:
* A JS array of records becomes a Lean `List` of a structure with the same
  fields.  Record spread `[...state, x]` becomes `state ++ [x]`.
* An action is a tagged record; the four type tags the reducers dispatch on
  ("books/add", "books/remove", "authors/add", "authors/remove") become
  constructors carrying their payloads, and every other type tag becomes the
  constructor `other` carrying the tag string, which reaches the `default`
  branch of each `switch` exactly as in the source.
* A reducer receives `Option` state: `none` models the JS `undefined` that
  triggers the `state = initialState` default-parameter, via `Option.getD`.
* The `uuid()` collaborator is modelled by an explicit `genId : String`
  argument threaded into `authorsReducer`; its uniqueness guarantee becomes a
  hypothesis (`genId` not among the existing ids) where a claim needs it.
* `rootReducer` spells out what `combineReducers` (the redux library
  collaborator) produces for the mapping `{ authors, books }`: for each field
  it extracts that field of the previous composite state (undefined when the
  composite state is undefined), applies the field reducer to it and the
  action, and writes the result into the corresponding field of a freshly
  built composite state.
-/

/-- Book record as dispatched by `BookInput`: a generated `id`, a `title`,
and a denormalized `authorName`. -/
structure Book where
  id : String
  title : String
  authorName : String
deriving DecidableEq, Repr

/-- Author record: a generated `id` and a display name `authorName`. -/
structure Author where
  id : String
  authorName : String
deriving DecidableEq, Repr

/-- Redux action as consumed by the two slice reducers.  The first four
constructors carry the payloads of the four handled type tags; `other`
carries any other type tag and reaches the `default` branch. -/
inductive ReduxAction where
  | booksAdd (payload : Book)
  | booksRemove (payload : String)
  | authorsAdd (payload : Author)
  | authorsRemove (payload : String)
  | other (tag : String)
deriving DecidableEq, Repr

/-- The JS type-tag string of an action, for stating which tags are handled. -/
def ReduxAction.typeTag : ReduxAction → String
  | .booksAdd _ => "books/add"
  | .booksRemove _ => "books/remove"
  | .authorsAdd _ => "authors/add"
  | .authorsRemove _ => "authors/remove"
  | .other t => t

/-- Initial state of the books slice (`const initialState = []`). -/
def booksInitialState : List Book := []

/-- Books slice reducer from `booksSlice.js`: appends on "books/add", filters
out the matching id on "books/remove", and returns the input unchanged on any
other action type. -/
def booksReducer (state : Option (List Book)) (action : ReduxAction) : List Book :=
  let state := state.getD booksInitialState
  match action with
  | .booksAdd payload => state ++ [payload]
  | .booksRemove payload => state.filter (fun book => book.id != payload)
  | _ => state

/-- Initial state of the authors slice (`const initialState = []`). -/
def authorsInitialState : List Author := []

/-- Authors slice reducer from `authorsSlice.js`: appends on "authors/add",
filters out the matching id on "authors/remove"; on "books/add" it looks for
an existing author whose `authorName` equals that of the payload and either returns
the state unchanged (found) or appends a fresh author record whose id comes
from the `uuid()` collaborator, modelled by `genId` (not found).  Any other
action type returns the input unchanged. -/
def authorsReducer (genId : String) (state : Option (List Author))
    (action : ReduxAction) : List Author :=
  let state := state.getD authorsInitialState
  match action with
  | .authorsAdd payload => state ++ [payload]
  | .authorsRemove payload =>
      state.filter (fun author => author.id != payload)
  | .booksAdd payload =>
      match state.find? (fun author => author.authorName == payload.authorName) with
      | some _ => state
      | none => state ++ [{ id := genId, authorName := payload.authorName }]
  | _ => state

/-- Composite application state: the fixed record shape produced by
`combineReducers({ authors: authorsReducer, books: booksReducer })`. -/
structure RootState where
  authors : List Author
  books : List Book
deriving DecidableEq, Repr

/-- Root reducer: what `combineReducers` builds from the mapping
`{ authors: authorsReducer, books: booksReducer }` in `store.js`.  Each field
reducer receives the previous value of its own field (undefined when the
composite state is undefined) together with the action, and its result is
written into that field of a newly constructed composite state. -/
def rootReducer (genId : String) (state : Option RootState)
    (action : ReduxAction) : RootState :=
  { authors := authorsReducer genId (state.map RootState.authors) action
    books := booksReducer (state.map RootState.books) action }

-- Sanity checks against the concrete scenarios of the spec.
example :
    rootReducer "g1" none (.booksAdd ⟨"b1", "Snow Crash", "Neal Stephenson"⟩) =
      { authors := [⟨"g1", "Neal Stephenson"⟩],
        books := [⟨"b1", "Snow Crash", "Neal Stephenson"⟩] } := by decide

example :
    authorsReducer "g2" (some [⟨"a1", "Mark Twain"⟩])
      (.booksAdd ⟨"b1", "Huck Finn", "Mark Twain"⟩) = [⟨"a1", "Mark Twain"⟩] := by
  decide

example :
    booksReducer (some [⟨"b1", "t", "n"⟩, ⟨"b2", "u", "m"⟩]) (.booksRemove "b1") =
      [⟨"b2", "u", "m"⟩] := by decide

/-! ## Helper lemmas shared by the claim theorems -/

/-- When some existing author already carries the display name of the payload, the
"books/add" branch of the authors reducer returns its input unchanged. -/
theorem authorsReducer_booksAdd_of_found {state : List Author} {b : Book}
    (genId : String) (h : ∃ a ∈ state, a.authorName = b.authorName) :
    authorsReducer genId (some state) (.booksAdd b) = state := by
  obtain ⟨a, hmem, hname⟩ := h
  cases hfind : state.find? (fun x => x.authorName == b.authorName) with
  | some a0 => simp [authorsReducer, hfind]
  | none =>
      rw [List.find?_eq_none] at hfind
      exact absurd (by simpa using hname) (by simpa using hfind a hmem)

/-- When no existing author carries the display name of the payload, the
"books/add" branch of the authors reducer appends a fresh author record. -/
theorem authorsReducer_booksAdd_of_not_found {state : List Author} {b : Book}
    (genId : String) (h : ∀ a ∈ state, a.authorName ≠ b.authorName) :
    authorsReducer genId (some state) (.booksAdd b) =
      state ++ [{ id := genId, authorName := b.authorName }] := by
  have hfind : state.find? (fun x => x.authorName == b.authorName) = none := by
    rw [List.find?_eq_none]
    intro x hx
    simpa using h x hx
  simp [authorsReducer, hfind]

/-! ## Claim theorems -/

/-- C1: for every composite state and every action, the combined reducer
returns a composite state whose fields are exactly the keys of the mapping
(`authors` and `books`), where each field holds the result of applying that
field slice reducer to the prior value of that field and the action. -/
theorem rootReducer_combines_fields (genId : String) (s : RootState)
    (a : ReduxAction) :
    rootReducer genId (some s) a =
      { authors := authorsReducer genId (some s.authors) a,
        books := booksReducer (some s.books) a } := rfl

/-- C2 counterexample: invoking the combined reducer on an undefined composite
state with a "books/add" action does not yield `{ books: [], authors: [] }`,
so the claim fails for some action. -/
theorem rootReducer_init_not_always_empty :
    rootReducer "g1" none
      (ReduxAction.booksAdd ⟨"b1", "Snow Crash", "Neal Stephenson"⟩) ≠
      { authors := [], books := [] } := by decide

/-- C2 amended: for every action whose type tag is none of the four handled
tags (in particular the synthetic initialization action redux dispatches),
invoking the combined reducer on an undefined composite state yields
`{ books: [], authors: [] }`, both slices seeded to their initial value. -/
theorem rootReducer_init_unhandled (genId t : String)
    (h : t ∉ ["books/add", "books/remove", "authors/add", "authors/remove"]) :
    rootReducer genId none (ReduxAction.other t) =
      { authors := [], books := [] } := rfl

/-- C2 amended, witness at the redux initialization tag. -/
theorem rootReducer_init_unhandled_witness :
    "@@redux/INIT" ∉ ["books/add", "books/remove", "authors/add", "authors/remove"] ∧
    rootReducer "g" none (ReduxAction.other "@@redux/INIT") =
      { authors := [], books := [] } :=
  ⟨by decide, rootReducer_init_unhandled "g" "@@redux/INIT" (by decide)⟩

/-- C7: dispatching "authors/add" through the combined reducer leaves the
books field equal to its prior value, and dispatching "books/add" leaves the
authors field either exactly unchanged or equal to its prior value with one
fresh record appended, so every pre-existing author entry stays in place. -/
theorem rootReducer_field_isolation (genId : String) (s : RootState)
    (a : Author) (b : Book) :
    (rootReducer genId (some s) (.authorsAdd a)).books = s.books ∧
    ((rootReducer genId (some s) (.booksAdd b)).authors = s.authors ∨
      (rootReducer genId (some s) (.booksAdd b)).authors =
        s.authors ++ [{ id := genId, authorName := b.authorName }]) := by
  refine ⟨rfl, ?_⟩
  have hproj : (rootReducer genId (some s) (.booksAdd b)).authors =
      authorsReducer genId (some s.authors) (.booksAdd b) := rfl
  rw [hproj]
  by_cases h : ∃ x ∈ s.authors, x.authorName = b.authorName
  · exact Or.inl (authorsReducer_booksAdd_of_found genId h)
  · push_neg at h
    exact Or.inr (authorsReducer_booksAdd_of_not_found genId h)

/-- C8: for every composite state and every action whose type tag is none of
the handled book/author tags, the combined reducer returns the state
unchanged; the default branch of each slice reducer makes the unknown tag a
no-op, not an error. -/
theorem rootReducer_unknown_noop (genId t : String) (s : RootState)
    (h : t ∉ ["books/add", "books/remove", "authors/add", "authors/remove"]) :
    rootReducer genId (some s) (ReduxAction.other t) = s := rfl

/-- C8 witness at a concrete unrelated tag and a concrete state. -/
theorem rootReducer_unknown_noop_witness :
    "app/loaded" ∉ ["books/add", "books/remove", "authors/add", "authors/remove"] ∧
    rootReducer "g" (some { authors := [⟨"a1", "Mark Twain"⟩],
                            books := [⟨"b1", "t", "Mark Twain"⟩] })
      (ReduxAction.other "app/loaded") =
      { authors := [⟨"a1", "Mark Twain"⟩], books := [⟨"b1", "t", "Mark Twain"⟩] } :=
  ⟨by decide,
    rootReducer_unknown_noop "g" "app/loaded"
      { authors := [⟨"a1", "Mark Twain"⟩], books := [⟨"b1", "t", "Mark Twain"⟩] }
      (by decide)⟩

/-- C3: when some author bearing the display name of the payload exists, the
authors reducer returns the collection unchanged on "books/add"; moreover,
from any collection with no author named "Mark Twain", dispatching
"authors/add" with name "Mark Twain" and then "books/add" with authorName
"Mark Twain" yields exactly one entry named "Mark Twain". -/
theorem authorsReducer_duplicate_suppression (g1 g2 : String)
    (state : List Author) (a0 : Author) (b : Book)
    (ha : a0.authorName = "Mark Twain") (hb : b.authorName = "Mark Twain")
    (hnone : ∀ a ∈ state, a.authorName ≠ "Mark Twain") :
    (∀ (st : List Author) (g : String) (bk : Book),
        (∃ a ∈ st, a.authorName = bk.authorName) →
        authorsReducer g (some st) (.booksAdd bk) = st) ∧
    (authorsReducer g2
        (some (authorsReducer g1 (some state) (.authorsAdd a0)))
        (.booksAdd b)).countP (fun a => a.authorName == "Mark Twain") = 1 := by
  constructor
  · intro st g bk h
    exact authorsReducer_booksAdd_of_found g h
  · have h1 : authorsReducer g1 (some state) (.authorsAdd a0) = state ++ [a0] := rfl
    rw [h1]
    have h2 : authorsReducer g2 (some (state ++ [a0])) (.booksAdd b) =
        state ++ [a0] :=
      authorsReducer_booksAdd_of_found g2 ⟨a0, by simp, by rw [ha, hb]⟩
    rw [h2, List.countP_append]
    have hz : state.countP (fun a => a.authorName == "Mark Twain") = 0 := by
      rw [List.countP_eq_zero]
      intro a hmem
      simpa using hnone a hmem
    simp [hz, List.countP_cons, ha]

/-- C3 witness: the empty prior collection, author "Mark Twain", then the
book "Huck Finn" by "Mark Twain". -/
theorem authorsReducer_duplicate_suppression_witness :
    (∀ (st : List Author) (g : String) (bk : Book),
        (∃ a ∈ st, a.authorName = bk.authorName) →
        authorsReducer g (some st) (.booksAdd bk) = st) ∧
    (authorsReducer "g2"
        (some (authorsReducer "g1" (some []) (.authorsAdd ⟨"a7", "Mark Twain"⟩)))
        (.booksAdd ⟨"b1", "Huck Finn", "Mark Twain"⟩)).countP
      (fun a => a.authorName == "Mark Twain") = 1 :=
  authorsReducer_duplicate_suppression "g1" "g2" [] ⟨"a7", "Mark Twain"⟩
    ⟨"b1", "Huck Finn", "Mark Twain"⟩ rfl rfl (by decide)

/-- C4: when no author carries the display name of the payload, the authors reducer
on "books/add" appends exactly one fresh record, display name taken from the
payload and id produced by the generator; under the uniqueness guarantee of
the generator that id differs from every existing id, and all prior entries are
preserved in order. -/
theorem authorsReducer_new_author (genId : String) (state : List Author)
    (b : Book) (h : ∀ a ∈ state, a.authorName ≠ b.authorName) :
    authorsReducer genId (some state) (.booksAdd b) =
      state ++ [{ id := genId, authorName := b.authorName }] ∧
    (genId ∉ state.map Author.id → ∀ a ∈ state, a.id ≠ genId) := by
  refine ⟨authorsReducer_booksAdd_of_not_found genId h, ?_⟩
  intro hg a hmem heq
  exact hg (heq ▸ List.mem_map_of_mem Author.id hmem)

/-- C4 witness: one existing author named "X", a book by "Y", generator
output "g9". -/
theorem authorsReducer_new_author_witness :
    authorsReducer "g9" (some [⟨"a1", "X"⟩]) (.booksAdd ⟨"b1", "t", "Y"⟩) =
      [⟨"a1", "X"⟩] ++ [{ id := "g9", authorName := "Y" }] ∧
    ("g9" ∉ [Author.mk "a1" "X"].map Author.id →
      ∀ a ∈ [Author.mk "a1" "X"], a.id ≠ "g9") :=
  authorsReducer_new_author "g9" [⟨"a1", "X"⟩] ⟨"b1", "t", "Y"⟩ (by decide)

/-- C10: the existing-author lookup compares display names by exact,
case-sensitive string equality: a collection containing "mark twain" but
nobody named "Mark Twain" gains a second record when "books/add" arrives with
authorName "Mark Twain", rather than being returned unchanged. -/
theorem authorsReducer_case_sensitive (genId : String) (state : List Author)
    (b : Book) (hlower : ∃ a ∈ state, a.authorName = "mark twain")
    (hnone : ∀ a ∈ state, a.authorName ≠ "Mark Twain")
    (hb : b.authorName = "Mark Twain") :
    authorsReducer genId (some state) (.booksAdd b) =
      state ++ [{ id := genId, authorName := "Mark Twain" }] := by
  have h : ∀ a ∈ state, a.authorName ≠ b.authorName := by
    intro a hmem
    rw [hb]
    exact hnone a hmem
  rw [authorsReducer_booksAdd_of_not_found genId h, hb]

/-- C10 witness: the collection holding only the lower-case "mark twain". -/
theorem authorsReducer_case_sensitive_witness :
    authorsReducer "g3" (some [⟨"a1", "mark twain"⟩])
      (.booksAdd ⟨"b1", "t", "Mark Twain"⟩) =
      [⟨"a1", "mark twain"⟩] ++ [{ id := "g3", authorName := "Mark Twain" }] :=
  authorsReducer_case_sensitive "g3" [⟨"a1", "mark twain"⟩]
    ⟨"b1", "t", "Mark Twain"⟩ ⟨⟨"a1", "mark twain"⟩, by decide, rfl⟩
    (by decide) rfl

/-- Under distinct keys, filtering out the key `i` agrees with erasing the
first record whose key is `i` (there is at most one, so first and all
coincide; with no match both are the identity). -/
theorem filter_bne_eq_eraseP {α : Type} (f : α → String) (i : String) :
    ∀ l : List α, (l.map f).Nodup →
      l.filter (fun x => f x != i) = l.eraseP (fun x => f x == i) := by
  intro l
  induction l with
  | nil => intro _; rfl
  | cons a l ih =>
      intro h
      rw [List.map_cons, List.nodup_cons] at h
      obtain ⟨hna, hnd⟩ := h
      by_cases ha : f a = i
      · have hcond : (f a == i) = true := by simpa using ha
        have hbne : ¬(f a != i) = true := by simp [ha]
        rw [List.filter_cons_of_neg (p := fun x => f x != i) (a := a) (l := l) hbne,
          List.eraseP_cons_of_pos (p := fun x => f x == i) (a := a) (l := l) hcond]
        rw [List.filter_eq_self]
        intro x hx
        have hne : f x ≠ i := by
          intro hfx
          have hmem : f x ∈ l.map f := List.mem_map_of_mem f hx
          rw [hfx, ← ha] at hmem
          exact hna hmem
        simpa using hne
      · have hcond : ¬(f a == i) = true := by simpa using ha
        have hbne : (f a != i) = true := by simpa using ha
        rw [List.filter_cons_of_pos (p := fun x => f x != i) (a := a) (l := l) hbne,
          List.eraseP_cons_of_neg (p := fun x => f x == i) (a := a) (l := l) hcond]
        rw [ih hnd]

/-- C5: with distinct ids in each collection, "books/remove" (resp.
"authors/remove") carrying id `i` returns the input with the first (and only)
record of id `i` erased, and returns the input unchanged when no record has
id `i`. -/
theorem remove_erases_first_match (genId i : String) (books : List Book)
    (authors : List Author) (hb : (books.map Book.id).Nodup)
    (ha : (authors.map Author.id).Nodup) :
    booksReducer (some books) (.booksRemove i) =
      books.eraseP (fun x => x.id == i) ∧
    ((∀ x ∈ books, x.id ≠ i) →
      booksReducer (some books) (.booksRemove i) = books) ∧
    authorsReducer genId (some authors) (.authorsRemove i) =
      authors.eraseP (fun x => x.id == i) ∧
    ((∀ x ∈ authors, x.id ≠ i) →
      authorsReducer genId (some authors) (.authorsRemove i) = authors) := by
  have hbr : booksReducer (some books) (.booksRemove i) =
      books.filter (fun x => x.id != i) := rfl
  have har : authorsReducer genId (some authors) (.authorsRemove i) =
      authors.filter (fun x => x.id != i) := rfl
  refine ⟨?_, ?_, ?_, ?_⟩
  · rw [hbr]
    exact filter_bne_eq_eraseP Book.id i books hb
  · intro hno
    rw [hbr, List.filter_eq_self]
    intro x hx
    simpa using hno x hx
  · rw [har]
    exact filter_bne_eq_eraseP Author.id i authors ha
  · intro hno
    rw [har, List.filter_eq_self]
    intro x hx
    simpa using hno x hx

/-- C5 witness: two-element collections with distinct ids, removing id "b1"
and noting the no-op direction for an absent id. -/
theorem remove_erases_first_match_witness :
    booksReducer (some [⟨"b1", "t", "n"⟩, ⟨"b2", "u", "m"⟩]) (.booksRemove "b1") =
      [Book.mk "b1" "t" "n", ⟨"b2", "u", "m"⟩].eraseP (fun x => x.id == "b1") ∧
    ((∀ x ∈ [Book.mk "b1" "t" "n", ⟨"b2", "u", "m"⟩], x.id ≠ "b1") →
      booksReducer (some [⟨"b1", "t", "n"⟩, ⟨"b2", "u", "m"⟩]) (.booksRemove "b1") =
        [⟨"b1", "t", "n"⟩, ⟨"b2", "u", "m"⟩]) ∧
    authorsReducer "g" (some [⟨"a1", "x"⟩]) (.authorsRemove "b1") =
      [Author.mk "a1" "x"].eraseP (fun x => x.id == "b1") ∧
    ((∀ x ∈ [Author.mk "a1" "x"], x.id ≠ "b1") →
      authorsReducer "g" (some [⟨"a1", "x"⟩]) (.authorsRemove "b1") =
        [⟨"a1", "x"⟩]) :=
  remove_erases_first_match "g" "b1" [⟨"b1", "t", "n"⟩, ⟨"b2", "u", "m"⟩]
    [⟨"a1", "x"⟩] (by decide) (by decide)

/-- C6: adding a book whose id is absent from the collection and then removing
that id restores the original collection. -/
theorem books_add_remove_roundtrip (C : List Book) (b : Book)
    (h : ∀ x ∈ C, x.id ≠ b.id) :
    booksReducer (some (booksReducer (some C) (.booksAdd b)))
      (.booksRemove b.id) = C := by
  have h1 : booksReducer (some C) (.booksAdd b) = C ++ [b] := rfl
  rw [h1]
  show (C ++ [b]).filter (fun x => x.id != b.id) = C
  rw [List.filter_append]
  have h2 : C.filter (fun x => x.id != b.id) = C := by
    rw [List.filter_eq_self]
    intro x hx
    simpa using h x hx
  have h3 : [b].filter (fun x => x.id != b.id) = [] := by simp
  rw [h2, h3, List.append_nil]

/-- C6 witness: one-element collection and a book with the fresh id "b2". -/
theorem books_add_remove_roundtrip_witness :
    booksReducer
      (some (booksReducer (some [⟨"b1", "t", "n"⟩]) (.booksAdd ⟨"b2", "u", "m"⟩)))
      (.booksRemove (Book.mk "b2" "u" "m").id) = [⟨"b1", "t", "n"⟩] :=
  books_add_remove_roundtrip [⟨"b1", "t", "n"⟩] ⟨"b2", "u", "m"⟩ (by decide)

/-- C9: when a collection holds two or more records with the same id, the
remove branch drops every record with that id, not only the first: the result
holds no record with that id and its length shrinks by the full multiplicity. -/
theorem remove_removes_all_duplicates (genId i : String) (books : List Book)
    (authors : List Author) (hb : 2 ≤ books.countP (fun x => x.id == i))
    (ha : 2 ≤ authors.countP (fun x => x.id == i)) :
    (booksReducer (some books) (.booksRemove i)).countP
      (fun x => x.id == i) = 0 ∧
    (booksReducer (some books) (.booksRemove i)).length =
      books.length - books.countP (fun x => x.id == i) ∧
    (authorsReducer genId (some authors) (.authorsRemove i)).countP
      (fun x => x.id == i) = 0 ∧
    (authorsReducer genId (some authors) (.authorsRemove i)).length =
      authors.length - authors.countP (fun x => x.id == i) := by
  have hbr : booksReducer (some books) (.booksRemove i) =
      books.filter (fun x => x.id != i) := rfl
  have har : authorsReducer genId (some authors) (.authorsRemove i) =
      authors.filter (fun x => x.id != i) := rfl
  have key : ∀ {α : Type} (f : α → String) (l : List α),
      (l.filter (fun x => f x != i)).countP (fun x => f x == i) = 0 ∧
      (l.filter (fun x => f x != i)).length =
        l.length - l.countP (fun x => f x == i) := by
    intro α f l
    constructor
    · rw [List.countP_eq_zero]
      intro x hx
      have := (List.mem_filter.mp hx).2
      simpa using this
    · induction l with
      | nil => rfl
      | cons a l ih =>
          rw [List.length_cons]
          have hcount : l.countP (fun x => f x == i) ≤ l.length :=
            List.countP_le_length _
          by_cases hfa : f a = i
          · have hc : (f a == i) = true := by simpa using hfa
            have hbne : ¬(f a != i) = true := by simp [hfa]
            rw [List.countP_cons_of_pos (p := fun x => f x == i) (a := a) l hc,
              List.filter_cons_of_neg (p := fun x => f x != i) (a := a) (l := l) hbne,
              ih]
            omega
          · have hc : ¬(f a == i) = true := by simpa using hfa
            have hbne : (f a != i) = true := by simpa using hfa
            rw [List.countP_cons_of_neg (p := fun x => f x == i) (a := a) l hc,
              List.filter_cons_of_pos (p := fun x => f x != i) (a := a) (l := l) hbne,
              List.length_cons, ih]
            omega
  exact ⟨(key Book.id books).1, hbr ▸ (key Book.id books).2,
    (key Author.id authors).1, har ▸ (key Author.id authors).2⟩

/-- C9 witness: collections holding two records sharing the id "d1". -/
theorem remove_removes_all_duplicates_witness :
    (booksReducer (some [⟨"d1", "t", "n"⟩, ⟨"d1", "u", "m"⟩])
      (.booksRemove "d1")).countP (fun x => x.id == "d1") = 0 ∧
    (booksReducer (some [⟨"d1", "t", "n"⟩, ⟨"d1", "u", "m"⟩])
      (.booksRemove "d1")).length =
      [Book.mk "d1" "t" "n", ⟨"d1", "u", "m"⟩].length -
        [Book.mk "d1" "t" "n", ⟨"d1", "u", "m"⟩].countP (fun x => x.id == "d1") ∧
    (authorsReducer "g" (some [⟨"d1", "x"⟩, ⟨"d1", "y"⟩])
      (.authorsRemove "d1")).countP (fun x => x.id == "d1") = 0 ∧
    (authorsReducer "g" (some [⟨"d1", "x"⟩, ⟨"d1", "y"⟩])
      (.authorsRemove "d1")).length =
      [Author.mk "d1" "x", ⟨"d1", "y"⟩].length -
        [Author.mk "d1" "x", ⟨"d1", "y"⟩].countP (fun x => x.id == "d1") :=
  remove_removes_all_duplicates "g" "d1" [⟨"d1", "t", "n"⟩, ⟨"d1", "u", "m"⟩]
    [⟨"d1", "x"⟩, ⟨"d1", "y"⟩] (by decide) (by decide)
